import Mathlib

/-!
Verification development for the clarifai repository.

The first part embeds the frontend helpers that live under
`src/frontend` (string normalisation, the scene-guide renderer, the
upload API wrapper and the WebSocket message handler) together with the
`get_daily_video_count` function of `src/backend/app/database/schema.sql`.
The second part models the agentic video-generation pipeline (splitter,
self-correcting attempt loop, parallel render scheduler, stitcher, job
orchestrator and usage limiter); the backend implementation of that
pipeline is not part of the checked-in sources, so those definitions are
modelled from the specification document.
-/

namespace Clarifai

/-! ### JavaScript character classes used by the frontend helpers -/

/-- The character class matched by JavaScript `\s` (and removed by
`String.prototype.trim`): ASCII whitespace, NBSP, the Unicode space
separators, line/paragraph separators and the BOM. -/
def isJsSpace (c : Char) : Bool :=
  let n := c.toNat
  n = 32 || n = 9 || n = 10 || n = 11 || n = 12 || n = 13 ||
  n = 0xa0 || n = 0x1680 || (0x2000 ≤ n && n ≤ 0x200a) ||
  n = 0x2028 || n = 0x2029 || n = 0x202f || n = 0x205f ||
  n = 0x3000 || n = 0xfeff

/-- The character class of the regex range `[a-z]`. -/
def jsLower (c : Char) : Bool :=
  97 ≤ c.toNat && c.toNat ≤ 122

/-- The character class of the regex range `[A-Z]`. -/
def jsUpper (c : Char) : Bool :=
  65 ≤ c.toNat && c.toNat ≤ 90

/-! ### fixAbstractSpacing (src/frontend/app/papers/[id]/page.tsx, lines 26-32) -/

/-- The global replace `text.replace(/([a-z])([A-Z])/g, '$1 $2')`: a space
is inserted between every lowercase letter immediately followed by an
uppercase letter.  (The regex scan resumes after the matched uppercase
letter, but an uppercase letter can never start a new match, so the
pairwise scan below is equivalent.) -/
def insertSpaces : List Char → List Char
  | [] => []
  | [c] => [c]
  | a :: b :: rest =>
    if jsLower a && jsUpper b then a :: ' ' :: insertSpaces (b :: rest)
    else a :: insertSpaces (b :: rest)

/-- The global replace `fixed.replace(/\s+/g, ' ')`: every maximal run of
whitespace collapses to a single ASCII space.  The flag records whether
the previous character belonged to a whitespace run. -/
def collapseWs (prev : Bool) : List Char → List Char
  | [] => []
  | c :: rest =>
    if isJsSpace c then
      if prev then collapseWs true rest else ' ' :: collapseWs true rest
    else c :: collapseWs false rest

/-- `String.prototype.trim`, left half: drop leading whitespace. -/
def jsTrimLeft (l : List Char) : List Char :=
  l.dropWhile isJsSpace

/-- `String.prototype.trim`, right half: drop trailing whitespace. -/
def jsTrimRight : List Char → List Char
  | [] => []
  | c :: rest =>
    match jsTrimRight rest with
    | [] => if isJsSpace c then [] else [c]
    | r => c :: r

/-- `String.prototype.trim`. -/
def jsTrim (l : List Char) : List Char :=
  jsTrimRight (jsTrimLeft l)

/-- `fixAbstractSpacing` from `src/frontend/app/papers/[id]/page.tsx`
(lines 26-32), on character lists. -/
def fixAbstractSpacingL (l : List Char) : List Char :=
  jsTrim (collapseWs false (insertSpaces l))

/-- `fixAbstractSpacing` on strings. -/
def fixAbstractSpacing (s : String) : String :=
  ⟨fixAbstractSpacingL s.data⟩

/-! #### Pairwise predicates on adjacent characters -/

/-- `pairwiseB R l` holds when every two adjacent elements of `l` are
related by `R`. -/
def pairwiseB {α : Type} (R : α → α → Bool) : List α → Bool
  | [] => true
  | [_] => true
  | a :: b :: rest => R a b && pairwiseB R (b :: rest)

/-- No two adjacent whitespace characters. -/
def noDoubleWs (l : List Char) : Bool :=
  pairwiseB (fun a b => !(isJsSpace a && isJsSpace b)) l

/-- No lowercase letter immediately followed by an uppercase letter. -/
def noLowerUpper (l : List Char) : Bool :=
  pairwiseB (fun a b => !(jsLower a && jsUpper b)) l

/-- The first character, if any, is not whitespace. -/
def headNotWs : List Char → Bool
  | [] => true
  | c :: _ => !isJsSpace c

/-- The last character, if any, is not whitespace. -/
def lastNotWs : List Char → Bool
  | [] => true
  | [c] => !isJsSpace c
  | _ :: b :: rest => lastNotWs (b :: rest)

/-- Every whitespace character is the ASCII space. -/
def allWsIsSpace (l : List Char) : Bool :=
  l.all fun c => !isJsSpace c || c = ' '

/-! ### uploadPaper (src/frontend/app/lib/api.ts, lines 60-96) -/

/-- The JSON body obtained from the upload response: either
`response.json()` fails to parse, or it parses to an object whose `id`
field is absent (`none`) or a string; the rest of the paper payload is
abstracted as an opaque string. -/
inductive UploadBody
  | parseFailure
  | parsed (id : Option String) (payload : String)
deriving DecidableEq, Repr

/-- Outcome of the `fetch` call inside `uploadPaper`: a network-level
failure (the promise rejects), or an HTTP response with its `ok` flag,
status text and body. -/
inductive UploadFetch
  | networkFailure (message : String)
  | response (ok : Bool) (statusText : String) (body : UploadBody)
deriving DecidableEq, Repr

/-- JavaScript truthiness of the `id` field: `undefined`/missing and the
empty string are falsy. -/
def jsTruthyStr : Option String → Bool
  | none => false
  | some s => if s = "" then false else true

/-- The `Paper` value `uploadPaper` resolves with: the parsed body. -/
structure PaperResult where
  id : Option String
  payload : String
deriving DecidableEq, Repr

/-- `uploadPaper` from `src/frontend/app/lib/api.ts` (lines 60-96): throws
on a non-ok response, rethrows JSON-parse and network errors, throws when
`data.id` is falsy, and otherwise returns the parsed body as the Paper. -/
def uploadPaper : UploadFetch → Except String PaperResult
  | .networkFailure m => .error m
  | .response ok statusText body =>
    if ok then
      match body with
      | .parseFailure => .error "Failed to upload paper: invalid JSON"
      | .parsed id payload =>
        if jsTruthyStr id then .ok ⟨id, payload⟩
        else .error "Invalid response from server: missing paper id"
    else .error ("Failed to upload paper: " ++ statusText)

/-! ### The progress channel and its client-side handler -/

/-- The payload of a `progress` message, as read by the client
(`videoProgress` state in `src/frontend/app/papers/[id]/page.tsx`). -/
structure WsProgress where
  current_scene : Nat
  total_scenes : Nat
  stage : String
  details : String
  progress_percent : Nat
deriving DecidableEq, Repr

/-- Modelled from the spec: the per-job progress-channel message of §6
(`{type: "log"|"progress"|"connected"|"keepalive", ...payload}`); the
backend WebSocket producer is not among the checked-in sources, so the
message is modelled as a tagged variant with a fixed payload per kind. -/
inductive WsMessage
  | log (message : String)
  | progress (data : WsProgress)
  | connected (message : String)
  | keepalive
deriving DecidableEq, Repr

/-- The client state touched by the message handler: the log list and the
current progress, from `src/frontend/app/papers/[id]/page.tsx`. -/
structure ClientState where
  videoLogs : List String
  videoProgress : Option WsProgress
deriving DecidableEq, Repr

/-- The `ws.onmessage` handler of `src/frontend/app/papers/[id]/page.tsx`
(lines 443-460).  The guard `data.type === 'log' && data.message` uses JS
truthiness, so a `log` message with empty text falls through every branch
and leaves the state unchanged; `data.data` of a progress message is an
object and hence always truthy. -/
def handleWsMessage (st : ClientState) (m : WsMessage) : ClientState :=
  match m with
  | .log message =>
    if message = "" then st
    else { st with videoLogs := st.videoLogs ++ [message] }
  | .progress data => { st with videoProgress := some data }
  | .connected _ => st
  | .keepalive => st

/-! ### The agentic video-generation pipeline

The backend agent (splitter, generator, executor, attempt loop, scheduler,
stitcher, orchestrator) is not part of the checked-in sources; the
definitions in this section are modelled from the specification. -/

/-- Modelled from the spec: a SceneSpec (§3) — sequence index (the
authoritative final ordering) and scene description. -/
structure SceneSpec where
  index : Nat
  description : String
deriving DecidableEq, Repr

/-- Modelled from the spec: the retry feedback context (§4.4) — the prior
attempt's failing code (absent for a generation-level error) and its error
text. -/
structure Feedback where
  code : Option String
  errorText : String
deriving DecidableEq, Repr

/-- One invocation of the Scene Code Generator: the attempt number and the
prior-failure context it was given. -/
structure GenCall where
  attempt : Nat
  prior : Option Feedback
deriving DecidableEq, Repr

/-- Modelled from the spec: a RenderAttempt (§3) — attempt number,
generated code (absent when generation itself failed) and error text
(absent on success). -/
structure RenderAttempt where
  attempt : Nat
  code : Option String
  error : Option String
deriving DecidableEq, Repr

/-- Modelled from the spec: a SceneOutcome (§3) — sequence index, rendered
flag, media artifact (present iff rendered), caption text, attempt count
used. -/
structure SceneOutcome where
  index : Nat
  rendered : Bool
  artifact : Option String
  caption : String
  attemptsUsed : Nat
deriving DecidableEq, Repr

/-- The feedback context carried out of a RenderAttempt: present exactly
when the attempt failed. -/
def feedbackOf (a : RenderAttempt) : Option Feedback :=
  a.error.map fun e => ⟨a.code, e⟩

/-- Modelled from the spec: the fixed attempt budget ("up to three
attempts", README; `max_attempts`, §4.4). -/
def maxAttempts : Nat := 3

/-- Modelled from the spec: the Self-Correcting Render Attempt Loop
(§4.4), parametrised by a generator stub `gen` (attempt number and prior
feedback to generated code or generation error) and an executor stub
`exec` (attempt number and code to artifact path or error text).  Returns
the SceneOutcome together with the generator-invocation log and the
RenderAttempt log.  Fuel counts the remaining attempts. -/
def attemptLoopAux (gen : Nat → Option Feedback → Except String String)
    (exec : Nat → String → Except String String) (scene : SceneSpec) :
    Nat → Nat → Option Feedback →
    SceneOutcome × List GenCall × List RenderAttempt
  | 0, attemptNo, _ =>
    (⟨scene.index, false, none, scene.description, attemptNo - 1⟩, [], [])
  | remaining + 1, attemptNo, prior =>
    let call : GenCall := ⟨attemptNo, prior⟩
    match gen attemptNo prior with
    | .error e =>
      let r := attemptLoopAux gen exec scene remaining (attemptNo + 1) (some ⟨none, e⟩)
      (r.1, call :: r.2.1, (⟨attemptNo, none, some e⟩ : RenderAttempt) :: r.2.2)
    | .ok code =>
      match exec attemptNo code with
      | .ok artifact =>
        (⟨scene.index, true, some artifact, scene.description, attemptNo⟩,
         [call], [⟨attemptNo, some code, none⟩])
      | .error err =>
        let r := attemptLoopAux gen exec scene remaining (attemptNo + 1) (some ⟨some code, err⟩)
        (r.1, call :: r.2.1, (⟨attemptNo, some code, some err⟩ : RenderAttempt) :: r.2.2)

/-- The attempt loop for one scene, starting at attempt 1 with no prior
context and the full attempt budget. -/
def attemptLoop (gen : Nat → Option Feedback → Except String String)
    (exec : Nat → String → Except String String) (scene : SceneSpec) :
    SceneOutcome × List GenCall × List RenderAttempt :=
  attemptLoopAux gen exec scene maxAttempts 1 none

/-- Invariant relating the generator-invocation log and the RenderAttempt
log of the attempt loop: calls are numbered consecutively from `n`, the
first call carries the incoming prior context, every later call carries
the feedback of the immediately preceding attempt, and an attempt followed
by another call necessarily failed. -/
def CallsOk : Nat → Option Feedback → List GenCall → List RenderAttempt → Prop
  | _, _, [], [] => True
  | n, prior, c :: cs, a :: rest =>
    c.attempt = n ∧ c.prior = prior ∧ a.attempt = n ∧
    (cs = [] ∨ a.error.isSome = true) ∧ CallsOk (n + 1) (feedbackOf a) cs rest
  | _, _, _, _ => False

/-- Placeholder outcome used for an out-of-range lookup (never reached
when the completion order is a permutation of the scene indices). -/
def defaultOutcome : SceneOutcome := ⟨0, false, none, "", 0⟩

/-- Per-scene results in the order the renders finished: the completion
order is a list of positions into the SceneSpec list. -/
def scheduleResults (loop : SceneSpec → SceneOutcome) (specs : List SceneSpec)
    (completionOrder : List Nat) : List (Nat × SceneOutcome) :=
  completionOrder.map fun i => (i, loop (specs.getD i ⟨0, ""⟩))

/-- Modelled from the spec: the Parallel Render Scheduler (§4.5) — runs
every scene's attempt loop (abstracted as `loop`), collects results in
completion order, and reassembles the SceneOutcome list back into
sequence-index order before returning. -/
def runScheduler (loop : SceneSpec → SceneOutcome) (specs : List SceneSpec)
    (completionOrder : List Nat) : List SceneOutcome :=
  (List.range specs.length).map fun i =>
    (((scheduleResults loop specs completionOrder).find? fun p => p.1 == i).map Prod.snd).getD
      defaultOutcome

/-- The distinct job-level stitch failure reason. -/
def noScenesRenderedError : String := "no scenes rendered"

/-- Modelled from the spec: the Stitcher (§4.6) — filter the ordered
outcomes to `rendered=true`, preserving order; if none rendered fail with
the distinct "no scenes rendered" error, else concatenate the media
artifacts in order. -/
def stitch (outcomes : List SceneOutcome) : Except String (List String) :=
  if (outcomes.filter fun o => o.rendered).isEmpty then
    Except.error noScenesRenderedError
  else
    Except.ok ((outcomes.filter fun o => o.rendered).filterMap fun o => o.artifact)

/-- Job status values of the ConceptJob lifecycle (§3). -/
inductive JobStatus
  | queued
  | splitting
  | rendering
  | stitching
  | completed
  | failed
deriving DecidableEq, Repr

/-- The ConceptJob fields the orchestrator owns: terminal status, ordered
outcomes, final video reference (the ordered clip list) and error detail. -/
structure ConceptJob where
  status : JobStatus
  outcomes : List SceneOutcome
  video : Option (List String)
  errorDetail : Option String
deriving DecidableEq, Repr

/-- Modelled from the spec: the Job Orchestrator (§4.8) — splitter result
in, then scheduler, then stitcher; a stitch failure marks the job failed
with the stitch error and no video reference, otherwise the job completes
with the stitched clip list. -/
def runJob (splitResult : Except String (List SceneSpec))
    (loop : SceneSpec → SceneOutcome) (completionOrder : List Nat) : ConceptJob :=
  match splitResult with
  | .error e => ⟨.failed, [], none, some e⟩
  | .ok specs =>
    match stitch (runScheduler loop specs completionOrder) with
    | .error e => ⟨.failed, runScheduler loop specs completionOrder, none, some e⟩
    | .ok clips => ⟨.completed, runScheduler loop specs completionOrder, some clips, none⟩

/-- Modelled from the spec: the successive status values a job passes
through under the orchestrator (§4.8), ending in a terminal status on
every path (the failure boundary forces a terminal transition). -/
def runJobTrace (splitResult : Except String (List SceneSpec))
    (loop : SceneSpec → SceneOutcome) (completionOrder : List Nat) : List JobStatus :=
  match splitResult with
  | .error _ => [.queued, .splitting, .failed]
  | .ok specs =>
    match stitch (runScheduler loop specs completionOrder) with
    | .error _ => [.queued, .splitting, .rendering, .stitching, .failed]
    | .ok _ => [.queued, .splitting, .rendering, .stitching, .completed]

/-- The allowed status transitions: each step moves one stage forward
along queued to splitting to rendering to stitching to completed, or from
any non-terminal status to failed. -/
def statusStep : JobStatus → JobStatus → Bool
  | .queued, .splitting => true
  | .splitting, .rendering => true
  | .rendering, .stitching => true
  | .stitching, .completed => true
  | .queued, .failed => true
  | .splitting, .failed => true
  | .rendering, .failed => true
  | .stitching, .failed => true
  | _, _ => false

/-- Terminal job statuses. -/
def isTerminal : JobStatus → Bool
  | .completed => true
  | .failed => true
  | _ => false

/-! ### Captions and the scene guide -/

/-- `VideoCaption` from `src/frontend/app/lib/api.ts` (lines 35-39): clip
index (read defensively with `??` by the renderer, hence optional), text,
and optional rendered flag. -/
structure VideoCaption where
  clip : Option Nat
  text : String
  rendered : Option Bool
deriving DecidableEq, Repr

/-- Modelled from the spec: the Caption/Scene-Guide Builder (§4.7) — a
pure transform over the ordered SceneOutcome list producing one caption
record per scene (index, text, rendered flag); the backend builder is not
among the checked-in sources. -/
def buildSceneGuide (outcomes : List SceneOutcome) : List VideoCaption :=
  outcomes.map fun o => ⟨some o.index, o.caption, some o.rendered⟩

/-- The data content displayed by `renderSceneGuide` of
`src/frontend/app/papers/[id]/page.tsx` (lines 35-67): one row per caption
in list order, labelled `caption.clip ?? index + 1`, showing
`caption.text || 'No description available'`; no filtering on the
rendered flag. -/
def renderSceneGuideEntries (captions : List VideoCaption) : List (Nat × String) :=
  captions.enum.map fun p =>
    (p.2.clip.getD (p.1 + 1),
     if p.2.text = "" then "No description available" else p.2.text)

/-! ### Usage limits -/

/-- A row of the `video_generations` table
(src/backend/app/database/schema.sql): owner and creation timestamp
(timestamps as naturals; `CURRENT_DATE` is the start-of-day timestamp). -/
structure VideoGenRow where
  user_id : String
  created_at : Nat
deriving DecidableEq, Repr

/-- `get_daily_video_count` from
`src/backend/app/database/schema.sql` (lines 180-196): the number of
`video_generations` rows of the user with `created_at >= CURRENT_DATE`. -/
def get_daily_video_count (rows : List VideoGenRow) (p_user_id : String)
    (currentDate : Nat) : Nat :=
  (rows.filter fun r => r.user_id == p_user_id && decide (currentDate ≤ r.created_at)).length

/-- The per-user daily quota (5 videos per day, enforced). -/
def DAILY_VIDEO_LIMIT : Nat := 5

/-- The per-user concurrency quota (3 concurrent generations, enforced). -/
def CONCURRENT_VIDEO_LIMIT : Nat := 3

/-- Decision of the Usage Limiter. -/
inductive LimiterDecision
  | allowed
  | denied (reason : String)
deriving DecidableEq, Repr

/-- Modelled from the spec: the Usage Limiter consulted before a job
starts (`check_and_reserve`, §6): denies when the user's daily count (as
computed by `get_daily_video_count`) has reached the daily quota or the
user's concurrent generations have reached the concurrency quota. -/
def check_and_reserve (rows : List VideoGenRow) (uid : String)
    (currentDate : Nat) (concurrent : Nat) : LimiterDecision :=
  if DAILY_VIDEO_LIMIT ≤ get_daily_video_count rows uid currentDate then
    .denied "daily video generation limit reached"
  else if CONCURRENT_VIDEO_LIMIT ≤ concurrent then
    .denied "concurrent video generation limit reached"
  else .allowed

/-- Modelled from the spec: job creation guarded by the Usage Limiter — a
denied request never creates a job (no `video_generations` row is
inserted). -/
def start_job (rows : List VideoGenRow) (uid : String)
    (currentDate concurrent now : Nat) : List VideoGenRow :=
  match check_and_reserve rows uid currentDate concurrent with
  | .allowed => rows ++ [⟨uid, now⟩]
  | .denied _ => rows

/-! ### Concrete sample inputs used to evaluate the definitions -/

/-- A concrete scene. -/
def stubScene : SceneSpec := ⟨0, "scene"⟩

/-- A generator stub that always returns code. -/
def stubGenOk : Nat → Option Feedback → Except String String :=
  fun _ _ => .ok "code"

/-- An executor stub that fails on attempt 1 and succeeds afterwards. -/
def stubExecFailOnce : Nat → String → Except String String :=
  fun n _ => if n = 1 then .error "err1" else .ok "art"

/-- An executor stub that always fails. -/
def stubExecFailAll : Nat → String → Except String String :=
  fun _ _ => .error "boom"

/-- Two concrete scenes. -/
def sampleSpecs : List SceneSpec := [⟨0, "intro"⟩, ⟨1, "main"⟩]

/-- A per-scene resolver on which only scene 0 renders. -/
def sampleLoopRenderFirst : SceneSpec → SceneOutcome :=
  fun s =>
    if s.index = 0 then ⟨s.index, true, some "clip0", s.description, 1⟩
    else ⟨s.index, false, none, s.description, 3⟩

/-- A per-scene resolver on which no scene renders. -/
def sampleLoopRenderNone : SceneSpec → SceneOutcome :=
  fun s => ⟨s.index, false, none, s.description, 3⟩

/-- Five same-day generation rows of one user. -/
def sampleRows : List VideoGenRow := List.replicate 5 ⟨"u1", 100⟩

/-- Two concrete scene outcomes, the second one skipped. -/
def sampleOutcomes : List SceneOutcome :=
  [⟨0, true, some "c0", "cap0", 1⟩, ⟨1, false, none, "cap1", 3⟩]

theorem pairwiseB_tail {α : Type} {R : α → α → Bool} {a : α} {l : List α}
    (h : pairwiseB R (a :: l) = true) : pairwiseB R l = true := by
  cases l with
  | nil => rfl
  | cons b rest =>
    unfold pairwiseB at h
    exact (Bool.and_eq_true _ _ |>.mp h).2

theorem pairwiseB_cons {α : Type} {R : α → α → Bool} {a : α} {l : List α}
    (hhead : ∀ b, l.head? = some b → R a b = true)
    (htail : pairwiseB R l = true) : pairwiseB R (a :: l) = true := by
  cases l with
  | nil => rfl
  | cons b rest =>
    unfold pairwiseB
    exact Bool.and_eq_true _ _ |>.mpr ⟨hhead b rfl, htail⟩

theorem pairwiseB_head {α : Type} {R : α → α → Bool} {a b : α} {l : List α}
    (h : pairwiseB R (a :: b :: l) = true) : R a b = true := by
  unfold pairwiseB at h
  exact (Bool.and_eq_true _ _ |>.mp h).1

theorem bool_not_true {b : Bool} (h : ¬(b = true)) : b = false := by
  cases b
  · rfl
  · exact absurd rfl h

/-! #### Lemmas about `insertSpaces` -/

theorem insertSpaces_cons (b : Char) (rest : List Char) :
    ∃ t, insertSpaces (b :: rest) = b :: t := by
  cases rest with
  | nil => exact ⟨[], rfl⟩
  | cons c r =>
    unfold insertSpaces
    by_cases h : (jsLower b && jsUpper c) = true
    · rw [if_pos h]; exact ⟨_, rfl⟩
    · rw [if_neg h]; exact ⟨_, rfl⟩

theorem noLowerUpper_insertSpaces (l : List Char) :
    noLowerUpper (insertSpaces l) = true := by
  induction l with
  | nil => rfl
  | cons a t ih =>
    cases t with
    | nil => rfl
    | cons b rest =>
      obtain ⟨t0, ht0⟩ := insertSpaces_cons b rest
      unfold insertSpaces
      by_cases h : (jsLower a && jsUpper b) = true
      · rw [if_pos h, ht0]
        have hsp : jsUpper ' ' = false := rfl
        have hsl : jsLower ' ' = false := rfl
        apply pairwiseB_cons
        · intro x hx
          simp only [List.head?] at hx
          cases hx
          simp [hsp]
        · apply pairwiseB_cons
          · intro x hx
            simp only [List.head?] at hx
            cases hx
            simp [hsl]
          · rw [← ht0]; exact ih
      · rw [if_neg h, ht0]
        apply pairwiseB_cons
        · intro x hx
          simp only [List.head?] at hx
          cases hx
          simp only [Bool.not_eq_true] at h
          simp [h]
        · rw [← ht0]; exact ih

theorem insertSpaces_id (l : List Char) (h : noLowerUpper l = true) :
    insertSpaces l = l := by
  induction l with
  | nil => rfl
  | cons a t ih =>
    cases t with
    | nil => rfl
    | cons b rest =>
      have hab := pairwiseB_head h
      have hcond : (jsLower a && jsUpper b) = false := by
        revert hab
        cases jsLower a && jsUpper b <;> simp
      unfold insertSpaces
      rw [if_neg (by simp [hcond])]
      rw [ih (pairwiseB_tail h)]

/-! #### Lemmas about `collapseWs` -/

theorem collapseWs_true_head (l : List Char) :
    ∀ c t, collapseWs true l = c :: t → isJsSpace c = false := by
  induction l with
  | nil => intro c t h; cases h
  | cons d rest ih =>
    intro c t h
    unfold collapseWs at h
    by_cases hd : isJsSpace d = true
    · rw [if_pos hd] at h
      exact ih c t h
    · rw [if_neg hd] at h
      cases h
      simpa using hd

theorem collapseWs_false_cons (d : Char) (r : List Char) :
    ∃ t, collapseWs false (d :: r) = (if isJsSpace d then ' ' else d) :: t := by
  unfold collapseWs
  by_cases hd : isJsSpace d = true
  · rw [if_pos hd, if_pos hd]; exact ⟨_, rfl⟩
  · rw [if_neg hd, if_neg hd]; exact ⟨_, rfl⟩

theorem noDoubleWs_collapseWs (l : List Char) (prev : Bool) :
    noDoubleWs (collapseWs prev l) = true := by
  induction l generalizing prev with
  | nil => rfl
  | cons c rest ih =>
    unfold collapseWs
    by_cases hc : isJsSpace c = true
    · rw [if_pos hc]
      cases prev with
      | true => exact ih true
      | false =>
        simp only [Bool.false_eq_true, if_false]
        apply pairwiseB_cons
        · intro b hb
          cases hh : collapseWs true rest with
          | nil => rw [hh] at hb; cases hb
          | cons x t =>
            rw [hh] at hb
            have hx := collapseWs_true_head rest x t hh
            simp only [List.head?, Option.some.injEq] at hb
            subst hb
            simp [hx]
        · exact ih true
    · rw [if_neg hc]
      apply pairwiseB_cons
      · intro b hb
        simp [bool_not_true hc]
      · exact ih false

theorem allWsIsSpace_collapseWs (l : List Char) (prev : Bool) :
    allWsIsSpace (collapseWs prev l) = true := by
  induction l generalizing prev with
  | nil => rfl
  | cons c rest ih =>
    unfold collapseWs
    by_cases hc : isJsSpace c = true
    · rw [if_pos hc]
      cases prev with
      | true => exact ih true
      | false =>
        simp only [Bool.false_eq_true, if_false]
        unfold allWsIsSpace
        rw [List.all_cons]
        refine Bool.and_eq_true _ _ |>.mpr ⟨by decide, ?_⟩
        exact ih true
    · rw [if_neg hc]
      unfold allWsIsSpace
      rw [List.all_cons]
      refine Bool.and_eq_true _ _ |>.mpr ⟨?_, ih false⟩
      simp [bool_not_true hc]

theorem noLowerUpper_collapseWs (l : List Char) (prev : Bool)
    (h : noLowerUpper l = true) : noLowerUpper (collapseWs prev l) = true := by
  induction l generalizing prev with
  | nil => rfl
  | cons c rest ih =>
    unfold collapseWs
    by_cases hc : isJsSpace c = true
    · rw [if_pos hc]
      cases prev with
      | true => exact ih true (pairwiseB_tail h)
      | false =>
        simp only [Bool.false_eq_true, if_false]
        apply pairwiseB_cons
        · intro b hb
          have hsl : jsLower ' ' = false := rfl
          simp [hsl]
        · exact ih true (pairwiseB_tail h)
    · rw [if_neg hc]
      apply pairwiseB_cons
      · intro b hb
        cases rest with
        | nil => cases hb
        | cons d r =>
          obtain ⟨t0, ht0⟩ := collapseWs_false_cons d r
          rw [ht0] at hb
          simp only [List.head?, Option.some.injEq] at hb
          by_cases hd : isJsSpace d = true
          · rw [if_pos hd] at hb
            subst hb
            have hsu : jsUpper ' ' = false := rfl
            simp [hsu]
          · rw [if_neg hd] at hb
            subst hb
            have hdd := pairwiseB_head h
            simpa using hdd
      · exact ih false (pairwiseB_tail h)

theorem collapseWs_id (l : List Char) (hall : allWsIsSpace l = true)
    (hnd : noDoubleWs l = true) :
    collapseWs false l = l ∧ (headNotWs l = true → collapseWs true l = l) := by
  induction l with
  | nil => exact ⟨rfl, fun _ => rfl⟩
  | cons c rest ih =>
    unfold allWsIsSpace at hall
    rw [List.all_cons] at hall
    obtain ⟨hc0, hrest⟩ := Bool.and_eq_true _ _ |>.mp hall
    have ihr := ih hrest (pairwiseB_tail hnd)
    constructor
    · unfold collapseWs
      by_cases hc : isJsSpace c = true
      · rw [if_pos hc]
        have hceq : c = ' ' := by
          rw [hc] at hc0; simpa using hc0
        have hhead : headNotWs rest = true := by
          cases rest with
          | nil => rfl
          | cons d r =>
            have := pairwiseB_head hnd
            rw [hc] at this
            simp only [Bool.true_and, Bool.not_eq_true'] at this
            unfold headNotWs
            simp [this]
        simp only [Bool.false_eq_true, if_false]
        rw [ihr.2 hhead, hceq]
      · rw [if_neg hc, ihr.1]
    · intro hh
      unfold headNotWs at hh
      have hc : isJsSpace c = false := by simpa using hh
      unfold collapseWs
      rw [if_neg (by simp [hc]), ihr.1]

/-! #### Lemmas about `jsTrimLeft` and `jsTrimRight` -/

theorem headNotWs_jsTrimLeft (l : List Char) : headNotWs (jsTrimLeft l) = true := by
  induction l with
  | nil => rfl
  | cons c rest ih =>
    unfold jsTrimLeft at ih ⊢
    rw [List.dropWhile_cons]
    by_cases hc : isJsSpace c = true
    · rw [if_pos hc]; exact ih
    · rw [if_neg hc]
      unfold headNotWs
      simp [bool_not_true hc]

theorem pairwiseB_dropWhile {R : Char → Char → Bool} (p : Char → Bool)
    (l : List Char) (h : pairwiseB R l = true) :
    pairwiseB R (l.dropWhile p) = true := by
  induction l with
  | nil => exact h
  | cons c rest ih =>
    rw [List.dropWhile_cons]
    by_cases hc : p c = true
    · rw [if_pos hc]; exact ih (pairwiseB_tail h)
    · rw [if_neg hc]; exact h

theorem all_dropWhile (p q : Char → Bool) (l : List Char)
    (h : l.all p = true) : (l.dropWhile q).all p = true := by
  induction l with
  | nil => exact h
  | cons c rest ih =>
    rw [List.all_cons] at h
    obtain ⟨h1, h2⟩ := Bool.and_eq_true _ _ |>.mp h
    rw [List.dropWhile_cons]
    by_cases hc : q c = true
    · rw [if_pos hc]; exact ih h2
    · rw [if_neg hc, List.all_cons, h1, h2]; rfl

theorem jsTrimRight_head (l : List Char) (c : Char) (t : List Char)
    (h : jsTrimRight l = c :: t) : l.head? = some c := by
  cases l with
  | nil => cases h
  | cons d rest =>
    unfold jsTrimRight at h
    cases hr : jsTrimRight rest with
    | nil =>
      rw [hr] at h
      by_cases hd : isJsSpace d = true
      · rw [if_pos hd] at h; cases h
      · rw [if_neg hd] at h; cases h; rfl
    | cons x xt =>
      rw [hr] at h
      cases h; rfl

theorem headNotWs_jsTrimRight (l : List Char) (h : headNotWs l = true) :
    headNotWs (jsTrimRight l) = true := by
  cases hr : jsTrimRight l with
  | nil => rfl
  | cons c t =>
    have hc := jsTrimRight_head l c t hr
    cases l with
    | nil => cases hc
    | cons d rest =>
      simp only [List.head?, Option.some.injEq] at hc
      subst hc
      exact h

theorem lastNotWs_jsTrimRight (l : List Char) : lastNotWs (jsTrimRight l) = true := by
  induction l with
  | nil => rfl
  | cons d rest ih =>
    unfold jsTrimRight
    cases hr : jsTrimRight rest with
    | nil =>
      by_cases hd : isJsSpace d = true
      · rw [if_pos hd]; rfl
      · rw [if_neg hd]
        unfold lastNotWs
        simp [bool_not_true hd]
    | cons c t =>
      show lastNotWs (d :: c :: t) = true
      show lastNotWs (c :: t) = true
      rw [← hr]
      exact ih

theorem pairwiseB_jsTrimRight {R : Char → Char → Bool} (l : List Char)
    (h : pairwiseB R l = true) : pairwiseB R (jsTrimRight l) = true := by
  induction l with
  | nil => exact h
  | cons d rest ih =>
    unfold jsTrimRight
    cases hr : jsTrimRight rest with
    | nil =>
      by_cases hd : isJsSpace d = true
      · rw [if_pos hd]; rfl
      · rw [if_neg hd]; rfl
    | cons c t =>
      have hhead := jsTrimRight_head rest c t hr
      cases rest with
      | nil => cases hhead
      | cons e rest2 =>
        have hec : e = c := by
          simpa using hhead
        subst hec
        show pairwiseB R (d :: e :: t) = true
        apply pairwiseB_cons
        · intro b hb
          simp only [List.head?, Option.some.injEq] at hb
          subst hb
          exact pairwiseB_head h
        · show pairwiseB R (e :: t) = true
          rw [← hr]
          exact ih (pairwiseB_tail h)

theorem all_jsTrimRight (p : Char → Bool) (l : List Char)
    (h : l.all p = true) : (jsTrimRight l).all p = true := by
  induction l with
  | nil => exact h
  | cons d rest ih =>
    rw [List.all_cons] at h
    obtain ⟨h1, h2⟩ := Bool.and_eq_true _ _ |>.mp h
    unfold jsTrimRight
    cases hr : jsTrimRight rest with
    | nil =>
      by_cases hd : isJsSpace d = true
      · rw [if_pos hd]; rfl
      · rw [if_neg hd, List.all_cons, h1]; rfl
    | cons c t =>
      show (d :: c :: t).all p = true
      rw [List.all_cons]
      refine Bool.and_eq_true _ _ |>.mpr ⟨h1, ?_⟩
      rw [← hr]
      exact ih h2

theorem jsTrimLeft_id (l : List Char) (h : headNotWs l = true) :
    jsTrimLeft l = l := by
  cases l with
  | nil => rfl
  | cons c rest =>
    unfold headNotWs at h
    have hc : isJsSpace c = false := by
      simpa using h
    unfold jsTrimLeft
    rw [List.dropWhile_cons, if_neg (by simp [hc])]

theorem jsTrimRight_id (l : List Char) (h : lastNotWs l = true) :
    jsTrimRight l = l := by
  induction l with
  | nil => rfl
  | cons c rest ih =>
    cases rest with
    | nil =>
      unfold lastNotWs at h
      have hc : isJsSpace c = false := by
        simpa using h
      show jsTrimRight [c] = [c]
      unfold jsTrimRight
      show (match jsTrimRight [] with
        | [] => if isJsSpace c = true then [] else [c]
        | r => c :: r) = [c]
      rw [show jsTrimRight [] = [] from rfl]
      rw [if_neg (by simp [hc])]
    | cons d r =>
      unfold lastNotWs at h
      have h2 := ih h
      unfold jsTrimRight
      rw [h2]

/-! #### Properties of the output of `fixAbstractSpacing` -/

theorem fixAbs_out_props (l : List Char) :
    noLowerUpper (fixAbstractSpacingL l) = true ∧
    noDoubleWs (fixAbstractSpacingL l) = true ∧
    allWsIsSpace (fixAbstractSpacingL l) = true ∧
    headNotWs (fixAbstractSpacingL l) = true ∧
    lastNotWs (fixAbstractSpacingL l) = true := by
  unfold fixAbstractSpacingL jsTrim
  refine ⟨?_, ?_, ?_, ?_, ?_⟩
  · exact pairwiseB_jsTrimRight _
      (pairwiseB_dropWhile _ _
        (noLowerUpper_collapseWs _ false (noLowerUpper_insertSpaces l)))
  · exact pairwiseB_jsTrimRight _
      (pairwiseB_dropWhile _ _ (noDoubleWs_collapseWs _ false))
  · exact all_jsTrimRight _ _
      (all_dropWhile _ _ _ (allWsIsSpace_collapseWs _ false))
  · exact headNotWs_jsTrimRight _ (headNotWs_jsTrimLeft _)
  · exact lastNotWs_jsTrimRight _

theorem fixAbs_idem_L (l : List Char) :
    fixAbstractSpacingL (fixAbstractSpacingL l) = fixAbstractSpacingL l := by
  obtain ⟨hlu, hnd, haw, hh, hl⟩ := fixAbs_out_props l
  set t := fixAbstractSpacingL l with ht
  show jsTrimRight (jsTrimLeft (collapseWs false (insertSpaces t))) = t
  rw [insertSpaces_id _ hlu]
  rw [(collapseWs_id _ haw hnd).1]
  rw [jsTrimLeft_id _ hh, jsTrimRight_id _ hl]

example : fixAbstractSpacing "helloWorld and moreStuff" = "hello World and more Stuff" := by decide
example : fixAbstractSpacing "  a   b  " = "a b" := by decide
example : fixAbstractSpacing "" = "" := by decide

/-- Claim C10: `fixAbstractSpacing` is idempotent, and its output never
contains two consecutive whitespace characters nor leading or trailing
whitespace. -/
theorem fixAbstractSpacing_idempotent_normalized (s : String) :
    fixAbstractSpacing (fixAbstractSpacing s) = fixAbstractSpacing s ∧
    noDoubleWs (fixAbstractSpacing s).data = true ∧
    headNotWs (fixAbstractSpacing s).data = true ∧
    lastNotWs (fixAbstractSpacing s).data = true := by
  have hp := fixAbs_out_props s.data
  refine ⟨?_, hp.2.1, hp.2.2.2.1, hp.2.2.2.2⟩
  show (⟨fixAbstractSpacingL (fixAbstractSpacingL s.data)⟩ : String)
      = ⟨fixAbstractSpacingL s.data⟩
  rw [fixAbs_idem_L]

/-! ### Claim C9: uploadPaper -/

example : uploadPaper (.response true "200 OK" (.parsed (some "abc") "rest"))
    = .ok ⟨some "abc", "rest"⟩ := rfl
example : uploadPaper (.response true "200 OK" (.parsed (some "") "rest"))
    = .error "Invalid response from server: missing paper id" := rfl
example : uploadPaper (.response false "500" (.parsed (some "abc") "rest"))
    = .error ("Failed to upload paper: " ++ "500") := rfl

/-- Claim C9: `uploadPaper` resolves with the parsed response body as a
Paper only when the HTTP response is ok and the JSON body contains an `id`
field; on a non-ok response, a body missing `id`, a JSON-parse failure or
a network failure it throws an Error and never returns a Paper value. -/
theorem uploadPaper_resolves_only_ok_with_id (r : UploadFetch) :
    (∀ p, uploadPaper r = .ok p →
      (∃ stt, r = .response true stt (.parsed p.id p.payload)) ∧ p.id.isSome = true) ∧
    (∀ stt body, r = .response false stt body → ∃ e, uploadPaper r = .error e) ∧
    (∀ stt payload, r = .response true stt (.parsed none payload) →
      ∃ e, uploadPaper r = .error e) ∧
    (∀ stt, r = .response true stt .parseFailure → ∃ e, uploadPaper r = .error e) ∧
    (∀ m, r = .networkFailure m → ∃ e, uploadPaper r = .error e) := by
  refine ⟨?_, ?_, ?_, ?_, ?_⟩
  · intro p hp
    cases r with
    | networkFailure m => simp [uploadPaper] at hp
    | response ok stt body =>
      cases ok with
      | false => simp [uploadPaper] at hp
      | true =>
        cases body with
        | parseFailure => simp [uploadPaper] at hp
        | parsed id payload =>
          cases id with
          | none => simp [uploadPaper, jsTruthyStr] at hp
          | some s =>
            by_cases hs : s = ""
            · subst hs
              simp [uploadPaper, jsTruthyStr] at hp
            · have heval : uploadPaper (.response true stt (.parsed (some s) payload))
                  = .ok ⟨some s, payload⟩ := by
                simp [uploadPaper, jsTruthyStr, hs]
              rw [heval] at hp
              cases hp
              exact ⟨⟨stt, rfl⟩, rfl⟩
  · intro stt body h
    subst h
    exact ⟨_, rfl⟩
  · intro stt payload h
    subst h
    exact ⟨_, rfl⟩
  · intro stt h
    subst h
    exact ⟨_, rfl⟩
  · intro m h
    subst h
    exact ⟨_, rfl⟩

/-- Witness for C9: the theorem evaluated at concrete fetch outcomes. -/
theorem uploadPaper_resolves_only_ok_with_id_witness :
    (((∃ stt, UploadFetch.response true "200 OK" (.parsed (some "abc") "rest")
        = .response true stt
            (.parsed (PaperResult.mk (some "abc") "rest").id
              (PaperResult.mk (some "abc") "rest").payload)) ∧
      (PaperResult.mk (some "abc") "rest").id.isSome = true)) ∧
    (∃ e, uploadPaper (.response false "500" (.parsed (some "abc") "rest")) = .error e) ∧
    (∃ e, uploadPaper (.response true "200 OK" (.parsed none "rest")) = .error e) ∧
    (∃ e, uploadPaper (.response true "200 OK" .parseFailure) = .error e) ∧
    (∃ e, uploadPaper (.networkFailure "net down") = .error e) := by
  refine ⟨?_, ?_, ?_, ?_, ?_⟩
  · exact (uploadPaper_resolves_only_ok_with_id
      (.response true "200 OK" (.parsed (some "abc") "rest"))).1
      ⟨some "abc", "rest"⟩ rfl
  · exact (uploadPaper_resolves_only_ok_with_id
      (.response false "500" (.parsed (some "abc") "rest"))).2.1 "500"
      (.parsed (some "abc") "rest") rfl
  · exact (uploadPaper_resolves_only_ok_with_id
      (.response true "200 OK" (.parsed none "rest"))).2.2.1 "200 OK" "rest" rfl
  · exact (uploadPaper_resolves_only_ok_with_id
      (.response true "200 OK" .parseFailure)).2.2.2.1 "200 OK" rfl
  · exact (uploadPaper_resolves_only_ok_with_id
      (.networkFailure "net down")).2.2.2.2 "net down" rfl

/-! ### Claim C6: progress-channel messages and the client handler -/

/-- Counterexample to C6 as stated: for the `log` message with empty text
the handler does not append the text to the log list (the JS truthiness
guard `data.message` rejects the empty string), so the log list is not
extended. -/
theorem handleWsMessage_empty_log_not_appended :
    (handleWsMessage ⟨[], none⟩ (.log "")).videoLogs ≠ ([] : List String) ++ [""] := by
  decide

/-- Claim C6 (amended): every progress-channel message has one of exactly
four kinds with a fixed payload per kind; the handler appends a log
message's text when the text is non-empty and leaves the state unchanged
when it is empty, replaces the current progress state with a progress
message's payload, and leaves all state unchanged for connected and
keepalive messages. -/
theorem handleWsMessage_behavior (st : ClientState) (m : WsMessage) :
    ((∃ s, m = .log s) ∨ (∃ d, m = .progress d) ∨
      (∃ s, m = .connected s) ∨ m = .keepalive) ∧
    (∀ s, m = .log s → s ≠ "" →
      handleWsMessage st m = { st with videoLogs := st.videoLogs ++ [s] }) ∧
    (∀ s, m = .log s → s = "" → handleWsMessage st m = st) ∧
    (∀ d, m = .progress d →
      handleWsMessage st m = { st with videoProgress := some d }) ∧
    (∀ s, m = .connected s → handleWsMessage st m = st) ∧
    (m = .keepalive → handleWsMessage st m = st) := by
  refine ⟨?_, ?_, ?_, ?_, ?_, ?_⟩
  · cases m with
    | log s => exact Or.inl ⟨s, rfl⟩
    | progress d => exact Or.inr (Or.inl ⟨d, rfl⟩)
    | connected s => exact Or.inr (Or.inr (Or.inl ⟨s, rfl⟩))
    | keepalive => exact Or.inr (Or.inr (Or.inr rfl))
  · intro s hm hs
    subst hm
    simp [handleWsMessage, hs]
  · intro s hm hs
    subst hm
    subst hs
    rfl
  · intro d hm
    subst hm
    rfl
  · intro s hm
    subst hm
    rfl
  · intro hm
    subst hm
    rfl

/-- Witness for the amended C6: the handler evaluated on one concrete
message of each kind. -/
theorem handleWsMessage_behavior_witness :
    handleWsMessage ⟨["a"], none⟩ (.log "x") = ⟨["a", "x"], none⟩ ∧
    handleWsMessage ⟨["a"], none⟩ (.log "") = ⟨["a"], none⟩ ∧
    handleWsMessage ⟨["a"], none⟩ (.progress ⟨1, 2, "rendering", "", 50⟩)
      = ⟨["a"], some ⟨1, 2, "rendering", "", 50⟩⟩ ∧
    handleWsMessage ⟨["a"], none⟩ (.connected "ok") = ⟨["a"], none⟩ ∧
    handleWsMessage ⟨["a"], none⟩ .keepalive = ⟨["a"], none⟩ := by
  refine ⟨?_, ?_, ?_, ?_, ?_⟩
  · exact (handleWsMessage_behavior ⟨["a"], none⟩ (.log "x")).2.1 "x" rfl (by decide)
  · exact (handleWsMessage_behavior ⟨["a"], none⟩ (.log "")).2.2.1 "" rfl rfl
  · exact (handleWsMessage_behavior ⟨["a"], none⟩
      (.progress ⟨1, 2, "rendering", "", 50⟩)).2.2.2.1 ⟨1, 2, "rendering", "", 50⟩ rfl
  · exact (handleWsMessage_behavior ⟨["a"], none⟩ (.connected "ok")).2.2.2.2.1 "ok" rfl
  · exact (handleWsMessage_behavior ⟨["a"], none⟩ .keepalive).2.2.2.2.2 rfl

/-! ### Claim C7: the caption / scene-guide builder -/

example : buildSceneGuide sampleOutcomes
    = [⟨some 0, "cap0", some true⟩, ⟨some 1, "cap1", some false⟩] := rfl
example : renderSceneGuideEntries (buildSceneGuide sampleOutcomes)
    = [(0, "cap0"), (1, "cap1")] := rfl

/-- Claim C7: for every ordered SceneOutcome list the builder produces
exactly one caption record per scene, in scene order, each carrying the
scene's index, caption text and rendered flag; entries with
`rendered = false` still carry their caption text and still appear in the
scene guide, and the frontend scene-guide renderer displays one entry per
caption record without filtering. -/
theorem buildSceneGuide_one_record_per_scene (outcomes : List SceneOutcome) :
    (buildSceneGuide outcomes).length = outcomes.length ∧
    (∀ i (hi : i < (buildSceneGuide outcomes).length) (hi2 : i < outcomes.length),
      (buildSceneGuide outcomes).get ⟨i, hi⟩ =
        ⟨some ((outcomes.get ⟨i, hi2⟩).index), (outcomes.get ⟨i, hi2⟩).caption,
         some ((outcomes.get ⟨i, hi2⟩).rendered)⟩) ∧
    (∀ o ∈ outcomes, o.rendered = false →
      (⟨some o.index, o.caption, some o.rendered⟩ : VideoCaption) ∈
        buildSceneGuide outcomes) ∧
    (renderSceneGuideEntries (buildSceneGuide outcomes)).length = outcomes.length := by
  refine ⟨?_, ?_, ?_, ?_⟩
  · simp [buildSceneGuide]
  · intro i hi hi2
    unfold buildSceneGuide
    simp [List.get_eq_getElem, List.getElem_map]
  · intro o ho hr
    exact List.mem_map_of_mem _ ho
  · simp [renderSceneGuideEntries, buildSceneGuide]

/-- Witness for C7: the builder evaluated on two concrete outcomes, the
second one skipped. -/
theorem buildSceneGuide_one_record_per_scene_witness :
    (buildSceneGuide sampleOutcomes).get
        ⟨1, by decide⟩ =
      ⟨some ((sampleOutcomes.get ⟨1, by decide⟩).index),
       (sampleOutcomes.get ⟨1, by decide⟩).caption,
       some ((sampleOutcomes.get ⟨1, by decide⟩).rendered)⟩ ∧
    (⟨some 1, "cap1", some false⟩ : VideoCaption) ∈ buildSceneGuide sampleOutcomes := by
  constructor
  · exact (buildSceneGuide_one_record_per_scene sampleOutcomes).2.1 1
      (by decide) (by decide)
  · exact (buildSceneGuide_one_record_per_scene sampleOutcomes).2.2.1
      ⟨1, false, none, "cap1", 3⟩ (by decide) rfl

/-! ### Claim C8: the usage limiter -/

example : get_daily_video_count sampleRows "u1" 100 = 5 := rfl
example : check_and_reserve sampleRows "u1" 100 0
    = .denied "daily video generation limit reached" := rfl
example : check_and_reserve [] "u1" 100 3
    = .denied "concurrent video generation limit reached" := rfl
example : check_and_reserve [] "u1" 100 0 = .allowed := rfl
example : get_daily_video_count [⟨"u1", 50⟩, ⟨"u2", 150⟩, ⟨"u1", 150⟩] "u1" 100 = 1 := rfl

/-- Claim C8: the usage-limiter check denies a job start exactly when the
user's daily count (the number of that user's `video_generations` rows
with `created_at` on or after the current date, as computed by
`get_daily_video_count`) has reached the daily quota of 5 or the user's
concurrent generations have reached the concurrency quota of 3, and a
denied request never creates a job. -/
theorem usage_limiter_denies_and_creates_no_job (rows : List VideoGenRow)
    (uid : String) (currentDate concurrent now : Nat) :
    DAILY_VIDEO_LIMIT = 5 ∧ CONCURRENT_VIDEO_LIMIT = 3 ∧
    ((∃ reason, check_and_reserve rows uid currentDate concurrent = .denied reason) ↔
      (DAILY_VIDEO_LIMIT ≤ get_daily_video_count rows uid currentDate ∨
        CONCURRENT_VIDEO_LIMIT ≤ concurrent)) ∧
    (∀ reason, check_and_reserve rows uid currentDate concurrent = .denied reason →
      start_job rows uid currentDate concurrent now = rows) := by
  refine ⟨rfl, rfl, ?_, ?_⟩
  · constructor
    · rintro ⟨reason, h⟩
      unfold check_and_reserve at h
      by_cases h1 : DAILY_VIDEO_LIMIT ≤ get_daily_video_count rows uid currentDate
      · exact Or.inl h1
      · rw [if_neg h1] at h
        by_cases h2 : CONCURRENT_VIDEO_LIMIT ≤ concurrent
        · exact Or.inr h2
        · rw [if_neg h2] at h
          cases h
    · intro h
      unfold check_and_reserve
      by_cases h1 : DAILY_VIDEO_LIMIT ≤ get_daily_video_count rows uid currentDate
      · rw [if_pos h1]
        exact ⟨_, rfl⟩
      · rw [if_neg h1]
        cases h with
        | inl hd => exact absurd hd h1
        | inr h2 =>
          rw [if_pos h2]
          exact ⟨_, rfl⟩
  · intro reason h
    unfold start_job
    rw [h]

/-- Witness for C8: a user with five same-day rows is denied and no job
row is created. -/
theorem usage_limiter_denies_and_creates_no_job_witness :
    start_job sampleRows "u1" 100 0 200 = sampleRows := by
  exact (usage_limiter_denies_and_creates_no_job sampleRows "u1" 100 0 200).2.2.2
    "daily video generation limit reached" rfl

/-! ### Claim C5: the job status chain -/

/-- Claim C5: every job's status moves only along the chain queued,
splitting, rendering, stitching, completed or failed (failure reachable
from any non-terminal stage), starting at queued; on every path — splitter
failure included — the trace ends in a terminal status and the final job
status is terminal, so a job is never left in a non-terminal status. -/
theorem job_status_chain_and_terminal (splitResult : Except String (List SceneSpec))
    (loop : SceneSpec → SceneOutcome) (completionOrder : List Nat) :
    (runJobTrace splitResult loop completionOrder).head? = some .queued ∧
    pairwiseB statusStep (runJobTrace splitResult loop completionOrder) = true ∧
    (∃ s, (runJobTrace splitResult loop completionOrder).getLast? = some s ∧
      isTerminal s = true) ∧
    isTerminal (runJob splitResult loop completionOrder).status = true := by
  cases splitResult with
  | error e => exact ⟨rfl, rfl, ⟨.failed, rfl, rfl⟩, rfl⟩
  | ok specs =>
    cases h : stitch (runScheduler loop specs completionOrder) with
    | error e =>
      simp only [runJobTrace, runJob, h]
      exact ⟨rfl, rfl, ⟨.failed, rfl, rfl⟩, rfl⟩
    | ok clips =>
      simp only [runJobTrace, runJob, h]
      exact ⟨rfl, rfl, ⟨.completed, rfl, rfl⟩, rfl⟩

/-! ### Claim C2: the parallel render scheduler -/

theorem find_map_eq (order : List Nat) (i : Nat) (f : Nat → SceneOutcome)
    (hmem : i ∈ order) :
    ((order.map fun j => (j, f j)).find? fun p => p.1 == i) = some (i, f i) := by
  induction order with
  | nil => cases hmem
  | cons j rest ih =>
    rw [List.map_cons]
    by_cases hji : j = i
    · subst hji
      rw [List.find?_cons_of_pos _ (by simp)]
    · rw [List.find?_cons_of_neg _ (by simp [hji])]
      cases List.mem_cons.mp hmem with
      | inl heq => exact absurd heq.symm hji
      | inr hmem2 => exact ih hmem2

theorem range_map_getD (specs : List SceneSpec) (loop : SceneSpec → SceneOutcome) :
    ((List.range specs.length).map fun i => loop (specs.getD i ⟨0, ""⟩))
      = specs.map loop := by
  induction specs with
  | nil => rfl
  | cons s rest ih =>
    have hcomp : ((fun i => loop ((s :: rest).getD i ⟨0, ""⟩)) ∘ Nat.succ)
        = fun i => loop (rest.getD i ⟨0, ""⟩) := by
      funext i
      rfl
    rw [List.length_cons, List.range_succ_eq_map, List.map_cons, List.map_map,
      hcomp, ih]
    try rfl

theorem runScheduler_eq (loop : SceneSpec → SceneOutcome) (specs : List SceneSpec)
    (order : List Nat) (hperm : order.Perm (List.range specs.length)) :
    runScheduler loop specs order = specs.map loop := by
  unfold runScheduler
  have hstep : ∀ i ∈ List.range specs.length,
      ((((scheduleResults loop specs order).find? fun p => p.1 == i).map
        Prod.snd).getD defaultOutcome) = loop (specs.getD i ⟨0, ""⟩) := by
    intro i hi
    have hmem : i ∈ order := hperm.mem_iff.mpr hi
    unfold scheduleResults
    rw [find_map_eq order i (fun j => loop (specs.getD j ⟨0, ""⟩)) hmem]
    rfl
  rw [List.map_congr_left hstep]
  exact range_map_getD specs loop

example : runScheduler sampleLoopRenderFirst sampleSpecs [1, 0]
    = [⟨0, true, some "clip0", "intro", 1⟩, ⟨1, false, none, "main", 3⟩] := rfl

/-- Claim C2: for every non-empty SceneSpec list, the scheduler returns a
SceneOutcome list of exactly the same length, in the same sequence-index
order, regardless of the order in which the individual renders finished
(any completion order that is a permutation of the scene positions). -/
theorem scheduler_same_length_and_order (loop : SceneSpec → SceneOutcome)
    (specs : List SceneSpec) (completionOrder : List Nat)
    (_hne : specs ≠ [])
    (hperm : completionOrder.Perm (List.range specs.length))
    (hidx : ∀ s, (loop s).index = s.index) :
    runScheduler loop specs completionOrder = specs.map loop ∧
    (runScheduler loop specs completionOrder).length = specs.length ∧
    (runScheduler loop specs completionOrder).map (fun o => o.index)
      = specs.map fun s => s.index := by
  have he := runScheduler_eq loop specs completionOrder hperm
  refine ⟨he, by rw [he, List.length_map], ?_⟩
  rw [he, List.map_map]
  apply List.map_congr_left
  intro s _
  exact hidx s

/-- Witness for C2: two scenes scheduled with the second finishing
first. -/
theorem scheduler_same_length_and_order_witness :
    runScheduler sampleLoopRenderFirst sampleSpecs [1, 0]
      = sampleSpecs.map sampleLoopRenderFirst ∧
    (runScheduler sampleLoopRenderFirst sampleSpecs [1, 0]).length
      = sampleSpecs.length ∧
    (runScheduler sampleLoopRenderFirst sampleSpecs [1, 0]).map (fun o => o.index)
      = sampleSpecs.map fun s => s.index := by
  exact scheduler_same_length_and_order sampleLoopRenderFirst sampleSpecs [1, 0]
    (by decide) (by decide)
    (by
      intro s
      unfold sampleLoopRenderFirst
      split <;> rfl)

/-! ### Claim C1: job completion and the stitched video -/

theorem filter_nil_of_any_false {α : Type} (p : α → Bool) (l : List α)
    (h : l.any p = false) : l.filter p = [] := by
  induction l with
  | nil => rfl
  | cons a t ih =>
    rw [List.any_cons] at h
    obtain ⟨h1, h2⟩ := Bool.or_eq_false_iff.mp h
    rw [List.filter_cons, if_neg (by simp [h1]), ih h2]

theorem filter_ne_nil_of_any_true {α : Type} (p : α → Bool) (l : List α)
    (h : l.any p = true) : l.filter p ≠ [] := by
  induction l with
  | nil => cases h
  | cons a t ih =>
    rw [List.any_cons] at h
    rw [List.filter_cons]
    cases ha : p a with
    | true =>
      rw [if_pos (by simp [ha])]
      exact List.cons_ne_nil a _
    | false =>
      rw [if_neg (by simp [ha])]
      rw [ha] at h
      exact ih (by simpa using h)

theorem nil_of_isEmpty {α : Type} (l : List α) (h : l.isEmpty = true) : l = [] := by
  cases l with
  | nil => rfl
  | cons a t => cases h

/-- Claim C1: for every job whose Splitter succeeded, the job completes
iff at least one scene rendered; if no scene rendered the job is failed
with the distinct "no scenes rendered" error and no video reference; if at
least one rendered, the job completes and the video is exactly the
rendered scenes' artifacts concatenated in sequence-index order. -/
theorem job_completed_iff_scene_rendered (specs : List SceneSpec)
    (loop : SceneSpec → SceneOutcome) (completionOrder : List Nat)
    (hperm : completionOrder.Perm (List.range specs.length)) :
    ((runJob (.ok specs) loop completionOrder).status = .completed ↔
      (specs.map loop).any (fun o => o.rendered) = true) ∧
    ((specs.map loop).any (fun o => o.rendered) = false →
      (runJob (.ok specs) loop completionOrder).status = .failed ∧
      (runJob (.ok specs) loop completionOrder).errorDetail
        = some noScenesRenderedError ∧
      (runJob (.ok specs) loop completionOrder).video = none) ∧
    ((specs.map loop).any (fun o => o.rendered) = true →
      (runJob (.ok specs) loop completionOrder).status = .completed ∧
      (runJob (.ok specs) loop completionOrder).video =
        some (((specs.map loop).filter fun o => o.rendered).filterMap
          fun o => o.artifact)) := by
  have he := runScheduler_eq loop specs completionOrder hperm
  cases hany : (specs.map loop).any (fun o => o.rendered) with
  | false =>
    have hfil := filter_nil_of_any_false (fun o => o.rendered) (specs.map loop) hany
    have hst : stitch (specs.map loop) = .error noScenesRenderedError := by
      unfold stitch
      rw [hfil]
      rfl
    have hj : runJob (.ok specs) loop completionOrder
        = ⟨.failed, specs.map loop, none, some noScenesRenderedError⟩ := by
      simp only [runJob, he, hst]
    refine ⟨?_, ?_, ?_⟩
    · rw [hj]
      constructor
      · intro hco
        exact JobStatus.noConfusion hco
      · intro hh
        exact Bool.noConfusion hh
    · intro _
      rw [hj]
      exact ⟨rfl, rfl, rfl⟩
    · intro hcontra
      exact Bool.noConfusion hcontra
  | true =>
    have hfne := filter_ne_nil_of_any_true (fun o => o.rendered) (specs.map loop) hany
    have hst : stitch (specs.map loop)
        = .ok (((specs.map loop).filter fun o => o.rendered).filterMap
            fun o => o.artifact) := by
      unfold stitch
      rw [if_neg fun hemp => hfne (nil_of_isEmpty _ hemp)]
    have hj : runJob (.ok specs) loop completionOrder
        = ⟨.completed, specs.map loop,
           some (((specs.map loop).filter fun o => o.rendered).filterMap
             fun o => o.artifact), none⟩ := by
      simp only [runJob, he, hst]
    refine ⟨?_, ?_, ?_⟩
    · rw [hj]
      constructor
      · intro _
        rfl
      · intro _
        rfl
    · intro hcontra
      exact Bool.noConfusion hcontra
    · intro _
      rw [hj]
      exact ⟨rfl, rfl⟩

/-- Witness for C1: with one of two scenes rendering, the job completes
and the video holds exactly the rendered scene's clip; with none
rendering, the job fails with no video. -/
theorem job_completed_iff_scene_rendered_witness :
    ((runJob (.ok sampleSpecs) sampleLoopRenderFirst [1, 0]).status = .completed ∧
      (runJob (.ok sampleSpecs) sampleLoopRenderFirst [1, 0]).video =
        some (((sampleSpecs.map sampleLoopRenderFirst).filter
          fun o => o.rendered).filterMap fun o => o.artifact)) ∧
    ((runJob (.ok sampleSpecs) sampleLoopRenderNone [1, 0]).status = .failed ∧
      (runJob (.ok sampleSpecs) sampleLoopRenderNone [1, 0]).errorDetail
        = some noScenesRenderedError ∧
      (runJob (.ok sampleSpecs) sampleLoopRenderNone [1, 0]).video = none) := by
  constructor
  · exact (job_completed_iff_scene_rendered sampleSpecs sampleLoopRenderFirst [1, 0]
      (by decide)).2.2 (by decide)
  · exact (job_completed_iff_scene_rendered sampleSpecs sampleLoopRenderNone [1, 0]
      (by decide)).2.1 (by decide)

/-! ### Claim C3: the attempt budget -/

theorem attemptLoopAux_all_fail (gen : Nat → Option Feedback → Except String String)
    (exec : Nat → String → Except String String) (scene : SceneSpec)
    (hfail : ∀ n c, ∃ e, exec n c = Except.error e) :
    ∀ remaining attemptNo prior,
      (attemptLoopAux gen exec scene remaining attemptNo prior).1.rendered = false ∧
      (attemptLoopAux gen exec scene remaining attemptNo prior).1.attemptsUsed
        = attemptNo + remaining - 1 ∧
      (attemptLoopAux gen exec scene remaining attemptNo prior).2.2.length = remaining ∧
      (attemptLoopAux gen exec scene remaining attemptNo prior).2.1.length = remaining := by
  intro remaining
  induction remaining with
  | zero =>
    intro attemptNo prior
    exact ⟨rfl, rfl, rfl, rfl⟩
  | succ r ih =>
    intro attemptNo prior
    cases hg : gen attemptNo prior with
    | error e =>
      have hr := ih (attemptNo + 1) (some ⟨none, e⟩)
      simp only [attemptLoopAux, hg]
      refine ⟨hr.1, ?_, ?_, ?_⟩
      · rw [hr.2.1]
        omega
      · rw [List.length_cons, hr.2.2.1]
      · rw [List.length_cons, hr.2.2.2]
    | ok code =>
      obtain ⟨e, he⟩ := hfail attemptNo code
      have hr := ih (attemptNo + 1) (some ⟨some code, e⟩)
      simp only [attemptLoopAux, hg, he]
      refine ⟨hr.1, ?_, ?_, ?_⟩
      · rw [hr.2.1]
        omega
      · rw [List.length_cons, hr.2.2.1]
      · rw [List.length_cons, hr.2.2.2]

/-- Claim C3: when the Executor fails on every attempt, the attempt loop
performs exactly `maxAttempts` (= 3) RenderAttempts — no more — and
terminates exhausted, resolving to a SceneOutcome with `rendered = false`
(it is a total function, never an unhandled exception). -/
theorem attempt_budget_exhaustion (gen : Nat → Option Feedback → Except String String)
    (exec : Nat → String → Except String String) (scene : SceneSpec)
    (hfail : ∀ n c, ∃ e, exec n c = Except.error e) :
    (attemptLoop gen exec scene).2.2.length = maxAttempts ∧
    maxAttempts = 3 ∧
    (attemptLoop gen exec scene).1.rendered = false ∧
    (attemptLoop gen exec scene).1.attemptsUsed = maxAttempts := by
  unfold attemptLoop
  have h := attemptLoopAux_all_fail gen exec scene hfail maxAttempts 1 none
  refine ⟨h.2.2.1, rfl, h.1, ?_⟩
  have h2 := h.2.1
  omega

/-- Witness for C3: a generator that always returns code and an executor
that always fails. -/
theorem attempt_budget_exhaustion_witness :
    (attemptLoop stubGenOk stubExecFailAll stubScene).2.2.length = maxAttempts ∧
    maxAttempts = 3 ∧
    (attemptLoop stubGenOk stubExecFailAll stubScene).1.rendered = false ∧
    (attemptLoop stubGenOk stubExecFailAll stubScene).1.attemptsUsed = maxAttempts :=
  attempt_budget_exhaustion stubGenOk stubExecFailAll stubScene
    (fun _ _ => ⟨"boom", rfl⟩)

/-! ### Claim C4: retry feedback to the generator -/

example : attemptLoop stubGenOk stubExecFailOnce stubScene
    = (⟨0, true, some "art", "scene", 2⟩,
       [⟨1, none⟩, ⟨2, some ⟨some "code", "err1"⟩⟩],
       [⟨1, some "code", some "err1"⟩, ⟨2, some "code", none⟩]) := rfl

theorem attemptLoopAux_callsOk (gen : Nat → Option Feedback → Except String String)
    (exec : Nat → String → Except String String) (scene : SceneSpec) :
    ∀ remaining attemptNo prior,
      CallsOk attemptNo prior
        (attemptLoopAux gen exec scene remaining attemptNo prior).2.1
        (attemptLoopAux gen exec scene remaining attemptNo prior).2.2 := by
  intro remaining
  induction remaining with
  | zero =>
    intro n p
    exact trivial
  | succ r ih =>
    intro n p
    cases hg : gen n p with
    | error e =>
      simp only [attemptLoopAux, hg]
      exact ⟨rfl, rfl, rfl, Or.inr rfl, ih (n + 1) (some ⟨none, e⟩)⟩
    | ok code =>
      cases he : exec n code with
      | ok artifact =>
        simp only [attemptLoopAux, hg, he]
        exact ⟨rfl, rfl, rfl, Or.inl rfl, trivial⟩
      | error err =>
        simp only [attemptLoopAux, hg, he]
        exact ⟨rfl, rfl, rfl, Or.inr rfl, ih (n + 1) (some ⟨some code, err⟩)⟩

theorem callsOk_props :
    ∀ (cs : List GenCall) (atts : List RenderAttempt) (n : Nat) (p : Option Feedback),
      CallsOk n p cs atts →
      cs.length = atts.length ∧
      (∀ i (hi : i < cs.length), (cs.get ⟨i, hi⟩).attempt = n + i) ∧
      (∀ h0 : 0 < cs.length, (cs.get ⟨0, h0⟩).prior = p) ∧
      (∀ i (hi : i + 1 < cs.length) (hi2 : i < atts.length),
        (cs.get ⟨i + 1, hi⟩).prior = feedbackOf (atts.get ⟨i, hi2⟩) ∧
        (atts.get ⟨i, hi2⟩).error.isSome = true) := by
  intro cs
  induction cs with
  | nil =>
    intro atts n p h
    cases atts with
    | nil =>
      refine ⟨rfl, ?_, ?_, ?_⟩
      · intro i hi
        exact absurd hi (by simp)
      · intro h0
        exact absurd h0 (by simp)
      · intro i hi hi2
        exact absurd hi (by simp)
    | cons a rest => exact h.elim
  | cons c cs2 ih =>
    intro atts n p h
    cases atts with
    | nil => exact h.elim
    | cons a rest =>
      obtain ⟨h1, h2, h3, h4, h5⟩ := h
      have IH := ih rest (n + 1) (feedbackOf a) h5
      refine ⟨?_, ?_, ?_, ?_⟩
      · rw [List.length_cons, List.length_cons, IH.1]
      · intro i hi
        cases i with
        | zero =>
          show c.attempt = n + 0
          omega
        | succ j =>
          have hj : j < cs2.length := Nat.lt_of_succ_lt_succ hi
          show (cs2.get ⟨j, hj⟩).attempt = n + (j + 1)
          have hja := IH.2.1 j hj
          omega
      · intro h0
        exact h2
      · intro i hi hi2
        cases i with
        | zero =>
          have h0cs : 0 < cs2.length := Nat.lt_of_succ_lt_succ hi
          constructor
          · show (cs2.get ⟨0, h0cs⟩).prior = feedbackOf a
            exact IH.2.2.1 h0cs
          · show a.error.isSome = true
            cases h4 with
            | inl hnil =>
              exfalso
              rw [hnil] at h0cs
              simp at h0cs
            | inr hsome => exact hsome
        | succ j =>
          have hj1 : j + 1 < cs2.length := Nat.lt_of_succ_lt_succ hi
          have hj2 : j < rest.length := Nat.lt_of_succ_lt_succ hi2
          have hlink := IH.2.2.2 j hj1 hj2
          constructor
          · show (cs2.get ⟨j + 1, hj1⟩).prior = feedbackOf (rest.get ⟨j, hj2⟩)
            exact hlink.1
          · show (rest.get ⟨j, hj2⟩).error.isSome = true
            exact hlink.2

/-- Claim C4: for every scene, attempt 1's generator call carries no
prior-error context, and every later generator call (attempt n+1) carries
exactly the immediately preceding attempt's failing code and error text —
which exists, since that attempt failed. -/
theorem generator_receives_previous_failure
    (gen : Nat → Option Feedback → Except String String)
    (exec : Nat → String → Except String String) (scene : SceneSpec) :
    (attemptLoop gen exec scene).2.1.length
      = (attemptLoop gen exec scene).2.2.length ∧
    (∀ h0 : 0 < (attemptLoop gen exec scene).2.1.length,
      ((attemptLoop gen exec scene).2.1.get ⟨0, h0⟩).prior = none ∧
      ((attemptLoop gen exec scene).2.1.get ⟨0, h0⟩).attempt = 1) ∧
    (∀ i (hi : i + 1 < (attemptLoop gen exec scene).2.1.length)
        (hi2 : i < (attemptLoop gen exec scene).2.2.length),
      ((attemptLoop gen exec scene).2.1.get ⟨i + 1, hi⟩).attempt = i + 2 ∧
      ((attemptLoop gen exec scene).2.1.get ⟨i + 1, hi⟩).prior
        = feedbackOf ((attemptLoop gen exec scene).2.2.get ⟨i, hi2⟩) ∧
      ((attemptLoop gen exec scene).2.2.get ⟨i, hi2⟩).error.isSome = true) := by
  unfold attemptLoop
  have hC := attemptLoopAux_callsOk gen exec scene maxAttempts 1 none
  have hP := callsOk_props _ _ _ _ hC
  refine ⟨hP.1, ?_, ?_⟩
  · intro h0
    refine ⟨hP.2.2.1 h0, ?_⟩
    have h := hP.2.1 0 h0
    omega
  · intro i hi hi2
    have h := hP.2.1 (i + 1) hi
    exact ⟨by omega, (hP.2.2.2 i hi hi2).1, (hP.2.2.2 i hi hi2).2⟩

/-- Witness for C4: an executor failing on attempt 1 and succeeding on
attempt 2 — call 2's context is exactly attempt 1's failing code and
error. -/
theorem generator_receives_previous_failure_witness :
    ((attemptLoop stubGenOk stubExecFailOnce stubScene).2.1.get
        ⟨0, by decide⟩).prior = none ∧
    ((attemptLoop stubGenOk stubExecFailOnce stubScene).2.1.get
        ⟨1, by decide⟩).prior
      = feedbackOf ((attemptLoop stubGenOk stubExecFailOnce stubScene).2.2.get
        ⟨0, by decide⟩) ∧
    ((attemptLoop stubGenOk stubExecFailOnce stubScene).2.2.get
        ⟨0, by decide⟩).error.isSome = true := by
  refine ⟨?_, ?_, ?_⟩
  · exact ((generator_receives_previous_failure stubGenOk stubExecFailOnce
      stubScene).2.1 (by decide)).1
  · exact ((generator_receives_previous_failure stubGenOk stubExecFailOnce
      stubScene).2.2 0 (by decide) (by decide)).2.1
  · exact ((generator_receives_previous_failure stubGenOk stubExecFailOnce
      stubScene).2.2 0 (by decide) (by decide)).2.2

end Clarifai
